import Mathlib

/-!
Verification of the klog-to-logr migration engine.

This file shallowly embeds the core of the repository:
  * the AST fragment and argument-restructuring algorithms of the `logr`
    fix rule (`fixes` package: `fixInfo`, `fixError`, `fixInitFlags`,
    `getFormatString`, `tryPkgStmtCall`, `tryPkgSymbol`, `getImportSpec`,
    `logrFix.fix`),
  * the rewrite-engine driver (`fixer.Fixer.fixFile`),
  * the import resolver (`importer.KindaFastImporter.ImportFrom` and
    `parsePackageFiles`),
and proves the specified properties about these definitions.
-/

namespace KlogToLogr

/-- Kinds of Go basic literals (`go/token` kinds restricted to those the
fix rule inspects: `token.STRING`, `token.INT`, anything else). -/
inductive LitKind where
  | string
  | int
  | other
deriving DecidableEq, Repr

/-- Fragment of the Go expression AST (`go/ast`) used by the fix rule.
`ident name hasObj` embeds `*ast.Ident` with its name and whether the
identifier has an associated declaration `Obj` (`Obj != nil`);
`basicLit` embeds `*ast.BasicLit`; `sel` embeds `*ast.SelectorExpr`
(`X.Sel`); `call` embeds `*ast.CallExpr`. -/
inductive GoExpr where
  | ident (name : String) (hasObj : Bool)
  | basicLit (kind : LitKind) (value : String)
  | sel (x : GoExpr) (selName : String)
  | call (fn : GoExpr) (args : List GoExpr)

mutual

/-- Embeds `go/types.ExprString` on the `GoExpr` fragment: the source
text of an expression. -/
def exprString : GoExpr → String
  | .ident n _ => n
  | .basicLit _ v => v
  | .sel x s => exprString x ++ "." ++ s
  | .call fn args => exprString fn ++ "(" ++ exprStringList args ++ ")"

/-- Comma-separated rendering of an argument list (helper for
`exprString` on calls). -/
def exprStringList : List GoExpr → String
  | [] => ""
  | [a] => exprString a
  | a :: rest => exprString a ++ ", " ++ exprStringList rest

end

/-- Embeds `getFormatString` (fixes/logr.go): panics (modelled as
`Except.error` carrying the panic message) unless the first argument is
a string basic literal, which it returns unchanged. -/
def getFormatString (args : List GoExpr) : Except String GoExpr :=
  match args with
  | [] => .error "No call arguments found"
  | a :: _ =>
    match a with
    | .basicLit k v =>
      if k = LitKind.string then .ok (.basicLit k v)
      else .error "First call argument is not a string"
    | _ => .error "First call argument is not a literal"

/-- Embeds the key computation in the key/value loops of `fixInfo` and
`fixError`: a bare identifier argument contributes its quoted name, any
other argument shape the quoted placeholder `FIXME__unknown_key`. -/
def kvKey (arg : GoExpr) : String :=
  match arg with
  | .ident n _ => "\"" ++ n ++ "\""
  | _ => "\"FIXME__unknown_key\""

/-- Embeds the key/value generation loop shared by `fixInfo` and
`fixError`: each argument after the format string becomes a string-literal
key followed by the argument itself. -/
def kvPairs : List GoExpr → List GoExpr
  | [] => []
  | a :: rest => GoExpr.basicLit .string (kvKey a) :: a :: kvPairs rest

/-- Embeds `fixInfo` (fixes/logr.go): the selector becomes `Info`, the
new arguments are the format string followed by key/value pairs for the
remaining arguments.  Returns the new selector name and argument list. -/
def fixInfo (args : List GoExpr) : Except String (String × List GoExpr) :=
  match getFormatString args with
  | .error e => .error e
  | .ok fmtLit => .ok ("Info", fmtLit :: kvPairs (args.drop 1))

/-- The positions (in `isErrorType` order) of the arguments whose static
type implements the `error` interface, as collected by the loop in
`logrFix.fixError`.  `implErr` embeds the type oracle
`types.Implements(loader.TypeInfo().Types[arg].Type, errorInterface)`. -/
def errorIndices (implErr : GoExpr → Bool) (args : List GoExpr) : List Nat :=
  ((args.enum).filter (fun p => implErr p.2)).map Prod.fst

/-- Result of `logrFix.fixError`: the rewritten selector name, the
rewritten argument list, and how many ambiguity warnings were printed to
stderr. -/
structure FixErrorResult where
  selName : String
  args : List GoExpr
  warnings : Nat

/-- The `errIndex` selection of `fixError`: the first argument position
whose static type implements `error`, if any (`isErrorType[0]`).  The
`isNamedErr` fallback in the source is dead code — it is initialised to
`-1` and never assigned — so no fallback occurs. -/
def errIndex (implErr : GoExpr → Bool) (args0 : List GoExpr) : Option Nat :=
  (errorIndices implErr args0).head?

/-- The `errExpr` text of `fixError`: the source text of the chosen
error argument, or the non-compiling placeholder when no argument
qualifies. -/
def errExprText (implErr : GoExpr → Bool) (args0 : List GoExpr) : String :=
  match errIndex implErr args0 with
  | some i => exprString (args0.getD i (GoExpr.ident "" false))
  | none => "FIXME__unknown_error_expr"

/-- The argument list of `fixError` after the chosen error argument (if
any) has been removed. -/
def remainingArgs (implErr : GoExpr → Bool) (args0 : List GoExpr) :
    List GoExpr :=
  match errIndex implErr args0 with
  | some i => args0.eraseIdx i
  | none => args0

/-- Embeds `logrFix.fixError` (fixes/logr.go): the selector becomes
`Error`; the first argument whose static type implements `error` (if
any) is removed from the argument list and its source text re-emitted as
a fresh identifier placed first (with a warning when more than one
argument qualifies, and the placeholder `FIXME__unknown_error_expr` when
none does); then the format string and key/value pairs follow. -/
def fixError (implErr : GoExpr → Bool) (args0 : List GoExpr) :
    Except String FixErrorResult :=
  match getFormatString (remainingArgs implErr args0) with
  | .error e => .error e
  | .ok fmtLit =>
    .ok ⟨"Error",
      GoExpr.ident (errExprText implErr args0) false :: fmtLit ::
        kvPairs ((remainingArgs implErr args0).drop 1),
      if 1 < (errorIndices implErr args0).length then 1 else 0⟩

/-- Embeds `fixInitFlags` (fixes/logr.go): renames the selector to the
deliberately non-compiling placeholder. -/
def fixInitFlagsSel : String := "FIXME__InitFlags_is_not_supported"

/-- Embeds `isPkgIdent` (fixes/logr.go): an identifier refers to the
klog package only if its name equals the resolved package name and it
has no associated declaration object. -/
def isPkgIdent (pkg : String) (e : GoExpr) : Bool :=
  match e with
  | .ident n hasObj => n = pkg && !hasObj
  | _ => false

/-- Statements of the embedded AST fragment: expression statements
(`*ast.ExprStmt`, the shape `tryPkgStmtCall` matches) and a catch-all
for statement forms the fix rule never rewrites. -/
inductive Stmt where
  | exprStmt (e : GoExpr)
  | other (tag : String)

/-- Embeds `logrFix.tryPkgStmtCall` together with the surrounding
`astutil` cursor semantics: given one statement, returns the list of
statements that replaces it in its statement list.  A bare
`pkg.Fatal/Fatalf/Fatalln(...)` statement becomes the error-style call
(selector `Error`, arguments restructured by `fixError`, qualifier
rewritten to `log`) followed by the inserted `os.Exit(255)` statement;
a bare `pkg.InitFlags(...)` statement keeps its arguments but has its
selector renamed to the broken placeholder and its qualifier rewritten;
every other statement (the function's `return false` paths) is left
unchanged.  `Except.error` propagates the panic of `getFormatString`. -/
def stmtFixOne (pkg : String) (implErr : GoExpr → Bool) (s : Stmt) :
    Except String (List Stmt) :=
  match s with
  | .exprStmt (.call (.sel x selName) args) =>
    if isPkgIdent pkg x then
      if selName = "Fatal" ∨ selName = "Fatalf" ∨ selName = "Fatalln" then
        match fixError implErr args with
        | .error e => .error e
        | .ok res =>
          .ok [ .exprStmt (.call (.sel (.ident "log" false) res.selName) res.args),
                .exprStmt (.call (.sel (.ident "os" false) "Exit")
                  [.basicLit .int "255"]) ]
      else if selName = "InitFlags" then
        .ok [ .exprStmt (.call (.sel (.ident "log" false) fixInitFlagsSel) args) ]
      else .ok [s]
    else .ok [s]
  | _ => .ok [s]

/-- Lifts `stmtFixOne` over a whole statement list, concatenating the
replacement lists: this is the `astutil.Cursor.InsertAfter` semantics of
inserting the new statement immediately after the rewritten one in the
same list. -/
def fixStmtList (pkg : String) (implErr : GoExpr → Bool) :
    List Stmt → Except String (List Stmt)
  | [] => .ok []
  | s :: rest =>
    match stmtFixOne pkg implErr s with
    | .error e => .error e
    | .ok fs =>
      match fixStmtList pkg implErr rest with
      | .error e => .error e
      | .ok frest => .ok (fs ++ frest)

/-- Embeds `logrFix.tryPkgSymbol` (fixes/logr.go) on a selector
expression node: a bare qualified reference `pkg.Level` (package
identifier with no declaration object) has only its package qualifier
rewritten to `log`; its selector is left unchanged; any other selector
is left alone (`return false`). Returns the replacement node when the
rule fired. -/
def tryPkgSymbol (pkg : String) (e : GoExpr) : Option GoExpr :=
  match e with
  | .sel (.ident n hasObj) selName =>
    if n = pkg && !hasObj then
      if selName = "Level" then
        some (.sel (.ident "log" false) "Level")
      else none
    else none
  | _ => none

/-- Embeds `*ast.ImportSpec`: an optional alias name and the quoted
path literal (`Path.Value`). -/
structure ImportSpec where
  name : Option String
  pathValue : String

/-- Models `strconv.Unquote` restricted to escape-free double-quoted
string literals (the only form import-path literals take here): strips
the surrounding quotes, failing on anything else. -/
def unquote (s : String) : Option String :=
  let cs := s.toList
  if 2 ≤ cs.length ∧ cs.head? = some '"' ∧ cs.getLast? = some '"'
      ∧ ((cs.drop 1).dropLast.all (fun c => c ≠ '"' ∧ c ≠ '\\')) then
    some (String.mk ((cs.drop 1).dropLast))
  else none

/-- Embeds `importPath` (fixes/logr.go): the unquoted import path of a
spec, or `""` if the path literal is not properly quoted. -/
def importPath (s : ImportSpec) : String :=
  match unquote s.pathValue with
  | some t => t
  | none => ""

/-- Embeds `getImportSpec` (fixes/logr.go): the first import spec whose
unquoted path equals the package path, if any. -/
def getImportSpec (imports : List ImportSpec) (pkg : String) : Option ImportSpec :=
  imports.find? (fun s => importPath s = pkg)

/-- The quoted path literal the fix writes into the matched import spec
(`impSpec.Path = &ast.BasicLit{... Value: `"k8s.io/client-go/log"`}`). -/
def targetPathValue : String := "\"k8s.io/client-go/log\""

/-- Rewrites the import spec found by `getImportSpec` — the first spec
whose path unquotes to `pkg` — to the target path literal, leaving all
other specs alone (the mutation `impSpec.Path = ...` in `logrFix.fix`). -/
def rewriteImport (imports : List ImportSpec) (pkg : String) : List ImportSpec :=
  match imports with
  | [] => []
  | s :: rest =>
    if importPath s = pkg then { s with pathValue := targetPathValue } :: rest
    else s :: rewriteImport rest pkg

/-- Embeds the relevant fields of `build.Package` as returned by the
`build.Import` collaborator: the canonical import path and the
self-declared package name. -/
structure BuildPkg where
  importPath : String
  name : String

/-- Embeds `*ast.File` at the granularity the fix rule observes: the import
list and the statement list the `astutil.Apply` traversal
rewrites. -/
structure GoFile where
  imports : List ImportSpec
  body : List Stmt

/-- Embeds `logrFix.fix` (fixes/logr.go).  If the file does not import
`klogPkg`, or the `build.Import` collaborator (`bld`) fails, it returns
`false` with the file untouched.  Otherwise it resolves the package
name (alias if the import is aliased, else the build name), rewrites the import
path literal to the target path, runs the traversal over the
body, and returns `true`.  `Except.error` models a panic escaping the
traversal. -/
def logrFix_fix (klogPkg : String) (bld : Option BuildPkg)
    (implErr : GoExpr → Bool) (f : GoFile) : Except String (Bool × GoFile) :=
  match getImportSpec f.imports klogPkg with
  | none => .ok (false, f)
  | some spec =>
    match bld with
    | none => .ok (false, f)
    | some b =>
      match fixStmtList (spec.name.getD b.name) implErr f.body with
      | .error e => .error e
      | .ok newBody =>
        .ok (true, ⟨rewriteImport f.imports klogPkg, newBody⟩)

/-- Embeds `fixer.Fixer.fixFile` (fixer/fixer.go): runs each fix over
the file; whenever a fix reports a change, the tree is re-serialized
and re-parsed (`rp`, the `GofmtFile` + `parser.ParseFile` round trip,
which can fail) before the next fix runs.  The returned flag records
whether any fix reported a change — exactly the condition under which
`HandleFix` (the output step) is invoked on the final file. -/
def fixFile (fixes : List (GoFile → Except String (Bool × GoFile)))
    (rp : GoFile → Except String GoFile) (fixed : Bool) (f : GoFile) :
    Except String (Bool × GoFile) :=
  match fixes with
  | [] => .ok (fixed, f)
  | fx :: rest =>
    match fx f with
    | .error e => .error e
    | .ok (changed, f1) =>
      if changed then
        match rp f1 with
        | .error e => .error e
        | .ok f2 => fixFile rest rp true f2
      else fixFile rest rp fixed f1

/-- The resolution cache `KindaFastImporter.packages`, embedded as an
association list from import path to either a loaded package (`some`,
carrying the `types.Package` token) or the nil in-progress sentinel
(`none`).  `a nil-but-present entry implies that a package is being
loaded, so a loop was found.` -/
abbrev ImporterState := List (String × Option String)

/-- Map lookup on the cache: `some none` is the present-but-nil
sentinel, `some (some pkg)` a populated entry, `none` absence. -/
def cacheLookup (st : ImporterState) (p : String) : Option (Option String) :=
  (st.find? (fun kv => kv.1 = p)).map Prod.snd

/-- Map store on the cache (`i.packages[ident] = v`): replaces an
existing entry for the key, otherwise appends one. -/
def cacheInsert (st : ImporterState) (p : String) (v : Option String) :
    ImporterState :=
  match st with
  | [] => [(p, v)]
  | kv :: rest =>
    if kv.1 = p then (p, v) :: rest else kv :: cacheInsert rest p v

/-- The error text of `fmt.Errorf("import loop detected for package %s",
ident)` where `pkgIdent.String()` quotes the path with `%q`. -/
def loopErrMsg (p : String) : String :=
  "import loop detected for package \"" ++ p ++ "\""

/-- The collaborators `KindaFastImporter.ImportFrom` calls out to,
embedded as oracles keyed by import path: whether the fast importer
(`importer.Default`) succeeds, whether the `build.Default.Import`
lookups on the fast and full paths succeed, whether
`parsePackageFiles` succeeds, which nested imports the type checker
resolves recursively while checking the package (spec §4.1 step 4), and
whether the type check itself then succeeds. -/
structure ImportEnv where
  fastImport : String → Bool
  fastBuildOk : String → Bool
  buildOk : String → Bool
  parseOk : String → Bool
  deps : String → List String
  checkOk : String → Bool

/-- Models the type-checker collaborator's recursion back into the importer
(spec §4.1 step 4): `config.Check` resolves each nested import
of the package by calling `ImportFrom` (the `resolve` argument) again,
propagating the first failure. -/
def checkDeps (resolve : ImporterState → String → ImporterState × Except String String) :
    ImporterState → List String → ImporterState × Except String Unit
  | st, [] => (st, .ok ())
  | st, d :: rest =>
    match resolve st d with
    | (st', .error e) => (st', .error e)
    | (st', .ok _) => checkDeps resolve st' rest

/-- Embeds `KindaFastImporter.ImportFrom` (importer package).  The
cache is consulted first: a populated entry is returned as-is, the nil
sentinel fails with the import-loop error.  Otherwise the sentinel is
stored and resolution proceeds: fast import (followed by a find-only
build lookup), else build lookup, parallel parse, and a type check that
recursively imports the package's dependencies; only on full success is
the sentinel replaced by the populated entry.  The mutation of
`i.packages` is threaded explicitly, so the state returned alongside an
error is the cache as the method leaves it.  `fuel` bounds the
recursion depth (any concrete resolution terminates; theorems supply
sufficient fuel). -/
def importFrom (env : ImportEnv) : Nat → ImporterState → String →
    ImporterState × Except String String
  | 0, st, _ => (st, .error "model: out of fuel")
  | fuel+1, st, path =>
    match cacheLookup st path with
    | some none => (st, .error (loopErrMsg path))
    | some (some pkg) => (st, .ok pkg)
    | none =>
      let st1 := cacheInsert st path none
      if env.fastImport path then
        if env.fastBuildOk path then
          (cacheInsert st1 path (some path), .ok path)
        else (st1, .error ("build lookup failed for " ++ path))
      else if !env.buildOk path then
        (st1, .error ("build lookup failed for " ++ path))
      else if !env.parseOk path then
        (st1, .error ("parse failed for " ++ path))
      else
        match checkDeps (importFrom env fuel) st1 (env.deps path) with
        | (st2, .error e) => (st2, .error e)
        | (st2, .ok _) =>
          if env.checkOk path then
            (cacheInsert st2 path (some path), .ok path)
          else (st2, .error ("typecheck failed for " ++ path))

/-- Embeds the fan-out loop of `KindaFastImporter.parsePackageFiles`:
each concurrent task writes the parse result for its own file into its
own slot of the pre-allocated error array.  `parse i` is the (per-file,
deterministic) result of `parser.ParseFile` on file `i` — `none` for
success, `some msg` for a parse error — and `schedule` is the order in
which the goroutines happen to complete. -/
def execSchedule (parse : Nat → Option String) (init : List (Option String)) :
    List Nat → List (Option String)
  | [] => init
  | i :: rest => execSchedule parse (init.set i (parse i)) rest

/-- Embeds the error-selection loop of `parsePackageFiles`: `if there
are errors, return the first one for deterministic results` — the first
non-nil entry of the error array in index order. -/
def selectFirstError (errors : List (Option String)) : Option String :=
  errors.foldl
    (fun acc e =>
      match acc, e with
      | none, some err => some err
      | acc, _ => acc)
    none

/-- Embeds `KindaFastImporter.parsePackageFiles` for a package of `n`
declared files: the error array starts as `n` nil slots, every task
writes its own slot in completion order (`schedule`; `wg.Wait` joins
before the array is read), and the returned error is the first non-nil
entry in declared-file order. -/
def parsePackageFiles (parse : Nat → Option String) (n : Nat)
    (schedule : List Nat) : Option String :=
  selectFirstError (execSchedule parse (List.replicate n none) schedule)

/-- The type oracle used by concrete examples: only identifiers named
`err` have error-capable type. -/
def implErrW : GoExpr → Bool
  | .ident "err" _ => true
  | _ => false

/-- The type oracle for the ambiguous example: identifiers named `err1`
or `err2` have error-capable type. -/
def implErr2W : GoExpr → Bool
  | .ident "err1" _ => true
  | .ident "err2" _ => true
  | _ => false

/-- Import graph for the concrete cycle example: `a` imports `b` and
`b` imports `a`, neither fast-importable, build and parse succeeding. -/
def cycEnvW : ImportEnv where
  fastImport := fun _ => false
  fastBuildOk := fun _ => true
  buildOk := fun _ => true
  parseOk := fun _ => true
  deps := fun p => if p = "a" then ["b"] else if p = "b" then ["a"] else []
  checkOk := fun _ => true

/-- Environment for the poisoned-cache example: package `p` is not
fast-importable, its build lookup succeeds, but parsing its files
fails. -/
def failEnvW : ImportEnv where
  fastImport := fun _ => false
  fastBuildOk := fun _ => true
  buildOk := fun _ => true
  parseOk := fun _ => false
  deps := fun _ => []
  checkOk := fun _ => true

/-- Per-file parse outcomes for the concrete example: file 1 fails with
`boom`, every other file parses. -/
def parseW : Nat → Option String :=
  fun i => if i = 1 then some "boom" else none

/-! ### Helper lemmas about the argument-restructuring algorithm -/

/-- `errorIndices` generalised to an arbitrary starting index,
mirroring the loop counter of the error-candidate scan in `fixError`. -/
def errorIndicesFrom (implErr : GoExpr → Bool) (n : Nat) (args : List GoExpr) :
    List Nat :=
  ((List.enumFrom n args).filter (fun p => implErr p.2)).map Prod.fst

lemma errorIndices_eq_from (implErr : GoExpr → Bool) (args : List GoExpr) :
    errorIndices implErr args = errorIndicesFrom implErr 0 args := rfl

lemma errorIndicesFrom_cons (implErr : GoExpr → Bool) (n : Nat) (a : GoExpr)
    (l : List GoExpr) :
    errorIndicesFrom implErr n (a :: l) =
      if implErr a then n :: errorIndicesFrom implErr (n+1) l
      else errorIndicesFrom implErr (n+1) l := by
  by_cases h : implErr a <;>
    simp [errorIndicesFrom, List.enumFrom_cons, h]

lemma errorIndicesFrom_eq_nil (implErr : GoExpr → Bool) (l : List GoExpr)
    (h : ∀ x ∈ l, implErr x = false) (n : Nat) :
    errorIndicesFrom implErr n l = [] := by
  induction l generalizing n with
  | nil => simp [errorIndicesFrom]
  | cons a l ih =>
    have ha := h a (by simp)
    rw [errorIndicesFrom_cons, if_neg (by simp [ha])]
    exact ih (fun x hx => h x (by simp [hx])) (n+1)

lemma errorIndicesFrom_ne_nil (implErr : GoExpr → Bool) (l : List GoExpr)
    (x : GoExpr) (hx : x ∈ l) (h : implErr x = true) (n : Nat) :
    errorIndicesFrom implErr n l ≠ [] := by
  induction l generalizing n with
  | nil => cases hx
  | cons a l ih =>
    rw [errorIndicesFrom_cons]
    by_cases ha : implErr a
    · simp [ha]
    · rw [if_neg ha]
      rcases List.mem_cons.mp hx with rfl | hx'
      · exact absurd h (by simpa using ha)
      · exact ih hx' (n+1)

lemma errorIndicesFrom_append (implErr : GoExpr → Bool) (pre l : List GoExpr)
    (h : ∀ x ∈ pre, implErr x = false) (n : Nat) :
    errorIndicesFrom implErr n (pre ++ l) =
      errorIndicesFrom implErr (n + pre.length) l := by
  induction pre generalizing n with
  | nil => simp
  | cons a pre ih =>
    have ha := h a (by simp)
    rw [List.cons_append, errorIndicesFrom_cons, if_neg (by simp [ha]),
      ih (fun x hx => h x (by simp [hx])) (n+1)]
    congr 1
    simp only [List.length_cons]
    omega

lemma getD_append_cons (pre post : List GoExpr) (e d : GoExpr) :
    (pre ++ e :: post).getD pre.length d = e := by
  induction pre with
  | nil => rfl
  | cons a pre ih => simpa using ih

lemma eraseIdx_append_cons (pre post : List GoExpr) (e : GoExpr) :
    (pre ++ e :: post).eraseIdx pre.length = pre ++ post := by
  induction pre with
  | nil => rfl
  | cons a pre ih => simpa using ih

/-- Full characterisation of `fixError` when the format string does not
itself have error type, every argument before position
`pre.length + 1` does not qualify, and the argument `e` at that
position does: `e` is chosen, removed from the tail, and re-emitted
first; a warning is printed exactly when a later argument also
qualifies. -/
lemma fixError_char (implErr : GoExpr → Bool) (v : String)
    (pre post : List GoExpr) (e : GoExpr)
    (hfmt : implErr (.basicLit .string v) = false)
    (hpre : ∀ x ∈ pre, implErr x = false)
    (he : implErr e = true) :
    fixError implErr (GoExpr.basicLit .string v :: (pre ++ e :: post)) =
      .ok ⟨"Error",
        GoExpr.ident (exprString e) false :: GoExpr.basicLit .string v ::
          kvPairs (pre ++ post),
        if errorIndicesFrom implErr (pre.length + 2) post = [] then 0 else 1⟩ := by
  have hidx : errorIndices implErr
      (GoExpr.basicLit .string v :: (pre ++ e :: post)) =
      (pre.length + 1) :: errorIndicesFrom implErr (pre.length + 2) post := by
    rw [errorIndices_eq_from, errorIndicesFrom_cons, if_neg (by simp [hfmt]),
      errorIndicesFrom_append implErr pre _ hpre, errorIndicesFrom_cons,
      if_pos he]
    simp only [Nat.zero_add, Nat.add_comm 1 pre.length]
  have hgetD : (GoExpr.basicLit .string v :: (pre ++ e :: post)).getD
      (pre.length + 1) (GoExpr.ident "" false) = e := by
    simpa [List.getD] using getD_append_cons pre post e (GoExpr.ident "" false)
  have herase : (GoExpr.basicLit .string v :: (pre ++ e :: post)).eraseIdx
      (pre.length + 1) = GoExpr.basicLit .string v :: (pre ++ post) := by
    rw [List.eraseIdx_cons_succ, eraseIdx_append_cons]
  have hrem : remainingArgs implErr
      (GoExpr.basicLit .string v :: (pre ++ e :: post)) =
      GoExpr.basicLit .string v :: (pre ++ post) := by
    simp only [remainingArgs, errIndex, hidx, List.head?_cons]
    exact herase
  have htext : errExprText implErr
      (GoExpr.basicLit .string v :: (pre ++ e :: post)) = exprString e := by
    simp only [errExprText, errIndex, hidx, List.head?_cons]
    rw [hgetD]
  simp only [fixError, hrem, htext, hidx, getFormatString, List.length_cons,
    List.drop_succ_cons, List.drop_zero]
  rcases h : errorIndicesFrom implErr (pre.length + 2) post with _ | ⟨a, l⟩ <;>
    simp [h]

/-! ### Claim theorems -/

/-- C1: for an error-family call whose arguments are a string-literal
format followed by further arguments exactly one of which has a static
type satisfying the error capability, the rewritten call places that
argument first (re-emitted from its source text as an identifier),
keeps the original format string as the second (message) argument,
removes the error argument from the tail, and turns each remaining
non-format argument into a key/value pair via `kvPairs` (quoted
identifier name as key for a bare identifier, the placeholder
`"FIXME__unknown_key"` otherwise). -/
theorem error_family_restructuring (implErr : GoExpr → Bool) (v : String)
    (pre post : List GoExpr) (e : GoExpr)
    (hfmt : implErr (.basicLit .string v) = false)
    (hpre : ∀ x ∈ pre, implErr x = false)
    (he : implErr e = true)
    (hpost : ∀ x ∈ post, implErr x = false) :
    fixError implErr (GoExpr.basicLit .string v :: (pre ++ e :: post)) =
      .ok ⟨"Error",
        GoExpr.ident (exprString e) false :: GoExpr.basicLit .string v ::
          kvPairs (pre ++ post), 0⟩ := by
  rw [fixError_char implErr v pre post e hfmt hpre he,
    if_pos (errorIndicesFrom_eq_nil implErr post hpost _)]

/-- Witness for C1: `Error("update failed", err, userID)` with `err` of
error-capable type becomes `Error(err, "update failed", "userID",
userID)` with no warning. -/
theorem error_family_restructuring_witness :
    fixError implErrW
      [GoExpr.basicLit .string "\"update failed\"", GoExpr.ident "err" false,
        GoExpr.ident "userID" false] =
      .ok ⟨"Error",
        [GoExpr.ident "err" false, GoExpr.basicLit .string "\"update failed\"",
          GoExpr.basicLit .string "\"userID\"", GoExpr.ident "userID" false],
        0⟩ := by
  have h := error_family_restructuring implErrW "\"update failed\"" []
    [GoExpr.ident "userID" false] (GoExpr.ident "err" false) rfl
    (by intro x hx; cases hx) rfl
    (by intro x hx
        rcases List.mem_singleton.mp hx with rfl
        rfl)
  exact h

/-- C8: among the non-format arguments of an error-family call, the
first argument with error-capable static type (position
`pre.length + 1`) is always the one chosen; when a later argument also
qualifies, exactly one warning is emitted and the rewrite still
completes using the first; when no later argument qualifies (exactly
one error-capable argument), no warning is emitted. -/
theorem ambiguous_error_selection (implErr : GoExpr → Bool) (v : String)
    (pre post : List GoExpr) (e : GoExpr)
    (hfmt : implErr (.basicLit .string v) = false)
    (hpre : ∀ x ∈ pre, implErr x = false)
    (he : implErr e = true) :
    (∀ e2 ∈ post, implErr e2 = true →
      fixError implErr (GoExpr.basicLit .string v :: (pre ++ e :: post)) =
        .ok ⟨"Error",
          GoExpr.ident (exprString e) false :: GoExpr.basicLit .string v ::
            kvPairs (pre ++ post), 1⟩)
    ∧ ((∀ x ∈ post, implErr x = false) →
      fixError implErr (GoExpr.basicLit .string v :: (pre ++ e :: post)) =
        .ok ⟨"Error",
          GoExpr.ident (exprString e) false :: GoExpr.basicLit .string v ::
            kvPairs (pre ++ post), 0⟩) := by
  constructor
  · intro e2 he2 himpl
    rw [fixError_char implErr v pre post e hfmt hpre he,
      if_neg (errorIndicesFrom_ne_nil implErr post e2 he2 himpl _)]
  · intro hpost
    rw [fixError_char implErr v pre post e hfmt hpre he,
      if_pos (errorIndicesFrom_eq_nil implErr post hpost _)]



/-- Witness for C8: `Error("m", err1, err2)` with both arguments
error-capable chooses `err1`, keeps `err2` as a key/value pair, and
emits exactly one warning. -/
theorem ambiguous_error_selection_witness :
    fixError implErr2W
      [GoExpr.basicLit .string "\"m\"", GoExpr.ident "err1" false,
        GoExpr.ident "err2" false] =
      .ok ⟨"Error",
        [GoExpr.ident "err1" false, GoExpr.basicLit .string "\"m\"",
          GoExpr.basicLit .string "\"err2\"", GoExpr.ident "err2" false],
        1⟩ := by
  have h := (ambiguous_error_selection implErr2W "\"m\"" []
    [GoExpr.ident "err2" false] (GoExpr.ident "err1" false) rfl
    (by intro x hx; cases hx) rfl).1
    (GoExpr.ident "err2" false) (by simp) rfl
  exact h

/-- C7: `getFormatString` aborts the run (panics, embedded as
`Except.error` with the panic message) when the argument list is empty,
when the first argument is not a basic literal, or when it is a basic
literal of non-string kind; when the first argument is a string basic
literal, no panic branch is taken and the original literal is returned
unchanged. -/
theorem format_string_precondition :
    (getFormatString [] = .error "No call arguments found")
    ∧ (∀ (e : GoExpr) (args : List GoExpr),
        (∀ k v, e ≠ GoExpr.basicLit k v) →
        getFormatString (e :: args) =
          .error "First call argument is not a literal")
    ∧ (∀ (k : LitKind) (v : String) (args : List GoExpr),
        k ≠ LitKind.string →
        getFormatString (GoExpr.basicLit k v :: args) =
          .error "First call argument is not a string")
    ∧ (∀ (v : String) (args : List GoExpr),
        getFormatString (GoExpr.basicLit .string v :: args) =
          .ok (GoExpr.basicLit .string v)) := by
  refine ⟨rfl, ?_, ?_, ?_⟩
  · intro e args h
    cases e with
    | basicLit k v => exact absurd rfl (h k v)
    | ident n o => rfl
    | sel x s => rfl
    | call fn a => rfl
  · intro k v args h
    simp [getFormatString, h]
  · intro v args
    rfl

/-- Witness for C7: the three panic branches and the success branch at
concrete inputs. -/
theorem format_string_precondition_witness :
    getFormatString [GoExpr.ident "x" false] =
        .error "First call argument is not a literal"
    ∧ getFormatString [GoExpr.basicLit .int "3"] =
        .error "First call argument is not a string"
    ∧ getFormatString [GoExpr.basicLit .string "\"m\"", GoExpr.ident "x" false] =
        .ok (GoExpr.basicLit .string "\"m\"") := by
  refine ⟨?_, ?_, ?_⟩
  · exact format_string_precondition.2.1 (GoExpr.ident "x" false) []
      (by intro k v h; cases h)
  · exact format_string_precondition.2.2.1 .int "3" [] (by intro h; cases h)
  · exact format_string_precondition.2.2.2 "\"m\"" [GoExpr.ident "x" false]

lemma fixError_ok_selName (implErr : GoExpr → Bool) (args : List GoExpr)
    (res : FixErrorResult) (h : fixError implErr args = .ok res) :
    res.selName = "Error" := by
  unfold fixError at h
  cases hf : getFormatString (remainingArgs implErr args) with
  | error e => rw [hf] at h; cases h
  | ok fmtLit =>
    rw [hf] at h
    cases h
    rfl

lemma fixStmtList_append (pkg : String) (implErr : GoExpr → Bool)
    (l1 l2 r1 r2 : List Stmt)
    (h1 : fixStmtList pkg implErr l1 = .ok r1)
    (h2 : fixStmtList pkg implErr l2 = .ok r2) :
    fixStmtList pkg implErr (l1 ++ l2) = .ok (r1 ++ r2) := by
  induction l1 generalizing r1 with
  | nil =>
    simp only [fixStmtList] at h1
    cases h1
    simpa using h2
  | cons s rest ih =>
    simp only [fixStmtList, List.cons_append] at h1 ⊢
    cases hs : stmtFixOne pkg implErr s with
    | error e => rw [hs] at h1; cases h1
    | ok fs =>
      rw [hs] at h1
      cases hr : fixStmtList pkg implErr rest with
      | error e => rw [hr] at h1; cases h1
      | ok frest =>
        rw [hr] at h1
        cases h1
        rw [show rest.append l2 = rest ++ l2 from rfl, ih frest hr]
        simp [List.append_assoc]

/-- C5: a bare statement `pkg.Fatal(...)`, `pkg.Fatalf(...)` or
`pkg.Fatalln(...)` matched through the package identifier is rewritten
to an error-style call (selector `Error`, arguments restructured by
`fixError`, qualifier rewritten to `log`), and an `os.Exit(255)`
statement is inserted immediately after it in the same statement list;
surrounding statements keep their positions. -/
theorem fatal_statement_rewrite (pkg : String) (implErr : GoExpr → Bool)
    (pre post pre' post' : List Stmt) (fsel : String) (args : List GoExpr)
    (res : FixErrorResult)
    (hsel : fsel = "Fatal" ∨ fsel = "Fatalf" ∨ fsel = "Fatalln")
    (hfix : fixError implErr args = .ok res)
    (hpre : fixStmtList pkg implErr pre = .ok pre')
    (hpost : fixStmtList pkg implErr post = .ok post') :
    fixStmtList pkg implErr
      (pre ++ Stmt.exprStmt (.call (.sel (.ident pkg false) fsel) args) :: post) =
      .ok (pre' ++
        Stmt.exprStmt (.call (.sel (.ident "log" false) "Error") res.args) ::
        Stmt.exprStmt (.call (.sel (.ident "os" false) "Exit")
          [.basicLit .int "255"]) :: post') := by
  have hp : isPkgIdent pkg (.ident pkg false) = true := by simp [isPkgIdent]
  have hsn := fixError_ok_selName implErr args res hfix
  have hone : stmtFixOne pkg implErr
      (Stmt.exprStmt (.call (.sel (.ident pkg false) fsel) args)) =
      .ok [Stmt.exprStmt (.call (.sel (.ident "log" false) "Error") res.args),
        Stmt.exprStmt (.call (.sel (.ident "os" false) "Exit")
          [.basicLit .int "255"])] := by
    simp only [stmtFixOne, hp, if_true, if_pos hsel, hfix, hsn]
  have htail : fixStmtList pkg implErr
      (Stmt.exprStmt (.call (.sel (.ident pkg false) fsel) args) :: post) =
      .ok (Stmt.exprStmt (.call (.sel (.ident "log" false) "Error") res.args) ::
        Stmt.exprStmt (.call (.sel (.ident "os" false) "Exit")
          [.basicLit .int "255"]) :: post') := by
    simp only [fixStmtList, hone, hpost]
    rfl
  exact fixStmtList_append pkg implErr pre _ pre' _ hpre htail

/-- Witness for C5: the bare statement `klog.Fatal("boom")` becomes
`log.Error(FIXME__unknown_error_expr, "boom")` immediately followed by
`os.Exit(255)`. -/
theorem fatal_statement_rewrite_witness :
    fixStmtList "klog" implErrW
      [Stmt.exprStmt (.call (.sel (.ident "klog" false) "Fatal")
        [.basicLit .string "\"boom\""])] =
      .ok [Stmt.exprStmt (.call (.sel (.ident "log" false) "Error")
          [.ident "FIXME__unknown_error_expr" false,
            .basicLit .string "\"boom\""]),
        Stmt.exprStmt (.call (.sel (.ident "os" false) "Exit")
          [.basicLit .int "255"])] := by
  have h := fatal_statement_rewrite "klog" implErrW [] [] [] [] "Fatal"
    [.basicLit .string "\"boom\""]
    ⟨"Error", [.ident "FIXME__unknown_error_expr" false,
      .basicLit .string "\"boom\""], 0⟩
    (Or.inl rfl) rfl rfl rfl
  simpa using h

/-- C6: a bare statement `pkg.InitFlags(...)` has its selector renamed
to the non-compiling placeholder `FIXME__InitFlags_is_not_supported`
(arguments untouched, qualifier rewritten to `log`, no statement
inserted), and a bare qualified reference `pkg.Level` keeps its
selector unchanged while only the package qualifier is rewritten to
`log`. -/
theorem unsupported_construct_markers (pkg : String) (implErr : GoExpr → Bool)
    (args : List GoExpr) :
    stmtFixOne pkg implErr
      (Stmt.exprStmt (.call (.sel (.ident pkg false) "InitFlags") args)) =
      .ok [Stmt.exprStmt (.call (.sel (.ident "log" false)
        "FIXME__InitFlags_is_not_supported") args)]
    ∧ tryPkgSymbol pkg (.sel (.ident pkg false) "Level") =
        some (.sel (.ident "log" false) "Level") := by
  have hp : isPkgIdent pkg (.ident pkg false) = true := by simp [isPkgIdent]
  constructor
  · simp only [stmtFixOne, hp, if_true,
      if_neg (show ¬("InitFlags" = "Fatal" ∨ "InitFlags" = "Fatalf" ∨
        "InitFlags" = "Fatalln") by decide),
      if_pos (show "InitFlags" = "InitFlags" from rfl)]
    rfl
  · simp [tryPkgSymbol]

lemma importPath_rewritten (s : ImportSpec) :
    importPath { s with pathValue := targetPathValue } =
      "k8s.io/client-go/log" := rfl

lemma getImportSpec_rewriteImport_none (imports : List ImportSpec)
    (klog : String) (hne : klog ≠ "k8s.io/client-go/log")
    (hcount : imports.countP (fun s => importPath s = klog) ≤ 1) :
    getImportSpec (rewriteImport imports klog) klog = none := by
  induction imports with
  | nil => rfl
  | cons s rest ih =>
    by_cases h : importPath s = klog
    · rw [rewriteImport, if_pos h]
      have hzero : rest.countP (fun s => importPath s = klog) = 0 := by
        rw [List.countP_cons_of_pos _ _ (by simpa using h)] at hcount
        omega
      have hrest : rest.find? (fun s => importPath s = klog) = none :=
        List.find?_eq_none.mpr (fun x hx hpx => by
          have := List.countP_eq_zero.mp hzero x hx
          exact this hpx)
      have hhead : ¬ (importPath { s with pathValue := targetPathValue } = klog) := by
        rw [importPath_rewritten]
        exact fun h' => hne h'.symm
      unfold getImportSpec
      rw [List.find?_cons_of_neg _ (by simpa using hhead)]
      exact hrest
    · rw [rewriteImport, if_neg h]
      have hrest : rest.countP (fun s => importPath s = klog) ≤ 1 := by
        rw [List.countP_cons_of_neg _ _ (by simpa using h)] at hcount
        exact hcount
      unfold getImportSpec at ih ⊢
      rw [List.find?_cons_of_neg _ (by simpa using h)]
      exact ih hrest

/-- C4: the logr fix is idempotent.  A successful run rewrites the
file's (unique) import of the source package path to the target path,
so a second run finds no import of the source path and reports no
change, leaving the file untouched — precisely because `fix` returns
`false` whenever the file's import list contains no import of the
source package path (second conjunct). -/
theorem logr_fix_idempotent (klogPkg : String) (bld : Option BuildPkg)
    (implErr : GoExpr → Bool) (f f' : GoFile)
    (hne : klogPkg ≠ "k8s.io/client-go/log")
    (hcount : f.imports.countP (fun s => importPath s = klogPkg) ≤ 1)
    (hrun : logrFix_fix klogPkg bld implErr f = .ok (true, f')) :
    logrFix_fix klogPkg bld implErr f' = .ok (false, f')
    ∧ ∀ g : GoFile, getImportSpec g.imports klogPkg = none →
        logrFix_fix klogPkg bld implErr g = .ok (false, g) := by
  have hskip : ∀ g : GoFile, getImportSpec g.imports klogPkg = none →
      logrFix_fix klogPkg bld implErr g = .ok (false, g) := by
    intro g hg
    unfold logrFix_fix
    rw [hg]
  refine ⟨?_, hskip⟩
  unfold logrFix_fix at hrun
  cases hspec : getImportSpec f.imports klogPkg with
  | none =>
    simp only [hspec] at hrun
    simp at hrun
  | some spec =>
    simp only [hspec] at hrun
    cases bld with
    | none => simp at hrun
    | some b =>
      cases hbody : fixStmtList (spec.name.getD b.name) implErr f.body with
      | error e =>
        simp only [hbody] at hrun
        cases hrun
      | ok nb =>
        simp only [hbody] at hrun
        have hf' : f' = ⟨rewriteImport f.imports klogPkg, nb⟩ := by
          simp only [Except.ok.injEq, Prod.mk.injEq] at hrun
          exact hrun.2.symm
        subst hf'
        exact hskip _ (getImportSpec_rewriteImport_none f.imports klogPkg hne hcount)

/-- Witness for C4: a file importing `k8s.io/klog` is rewritten once
(change reported), and the second run reports no change. -/
theorem logr_fix_idempotent_witness :
    logrFix_fix "k8s.io/klog" (some ⟨"k8s.io/klog", "klog"⟩) implErrW
      ⟨[⟨none, "\"k8s.io/client-go/log\""⟩], []⟩ =
      .ok (false, ⟨[⟨none, "\"k8s.io/client-go/log\""⟩], []⟩) := by
  have h := (logr_fix_idempotent "k8s.io/klog"
    (some ⟨"k8s.io/klog", "klog"⟩) implErrW
    ⟨[⟨none, "\"k8s.io/klog\""⟩], []⟩
    ⟨[⟨none, "\"k8s.io/client-go/log\""⟩], []⟩
    (by decide) (by decide) rfl).1
  exact h

/-- C10: a file whose import list contains the source package path is
always reported as changed — `fix` returns `true` after rewriting the import
even when the traversal changes nothing in the body — and the
engine consequently re-serializes/re-parses the file (`rp`) and reaches
the output step (`HandleFix`), reflected by the `true` flag in
`fixFile`'s result. -/
theorem import_rewrite_reports_change (klogPkg : String) (b : BuildPkg)
    (implErr : GoExpr → Bool) (f : GoFile) (spec : ImportSpec) (f2 : GoFile)
    (rp : GoFile → Except String GoFile)
    (hspec : getImportSpec f.imports klogPkg = some spec)
    (hbody : fixStmtList (spec.name.getD b.name) implErr f.body = .ok f.body)
    (hrp : rp ⟨rewriteImport f.imports klogPkg, f.body⟩ = .ok f2) :
    logrFix_fix klogPkg (some b) implErr f =
      .ok (true, ⟨rewriteImport f.imports klogPkg, f.body⟩)
    ∧ fixFile [logrFix_fix klogPkg (some b) implErr] rp false f =
        .ok (true, f2) := by
  have h1 : logrFix_fix klogPkg (some b) implErr f =
      .ok (true, ⟨rewriteImport f.imports klogPkg, f.body⟩) := by
    unfold logrFix_fix
    simp only [hspec, hbody]
  refine ⟨h1, ?_⟩
  unfold fixFile
  simp only [h1, hrp, if_true]
  rfl

/-- Witness for C10: a file that imports `k8s.io/klog` but whose body
contains no reference to it is still reported as changed and handed to
the output step. -/
theorem import_rewrite_reports_change_witness :
    fixFile [logrFix_fix "k8s.io/klog" (some ⟨"k8s.io/klog", "klog"⟩) implErrW]
      (fun g => .ok g) false ⟨[⟨none, "\"k8s.io/klog\""⟩], []⟩ =
      .ok (true, ⟨[⟨none, "\"k8s.io/client-go/log\""⟩], []⟩) := by
  have h := (import_rewrite_reports_change "k8s.io/klog"
    ⟨"k8s.io/klog", "klog"⟩ implErrW ⟨[⟨none, "\"k8s.io/klog\""⟩], []⟩
    ⟨none, "\"k8s.io/klog\""⟩ ⟨[⟨none, "\"k8s.io/client-go/log\""⟩], []⟩
    (fun g => .ok g) rfl rfl rfl).2
  exact h

/-! ### Helper lemmas about the import resolver -/

lemma cacheLookup_cons (kv : String × Option String) (rest : ImporterState)
    (p : String) :
    cacheLookup (kv :: rest) p =
      if kv.1 = p then some kv.2 else cacheLookup rest p := by
  by_cases h : kv.1 = p
  · rw [cacheLookup, List.find?_cons_of_pos _ (by simpa using h), if_pos h]
    rfl
  · rw [cacheLookup, List.find?_cons_of_neg _ (by simpa using h), if_neg h]
    rfl

lemma cacheLookup_insert (st : ImporterState) (p q : String) (v : Option String) :
    cacheLookup (cacheInsert st q v) p =
      if p = q then some v else cacheLookup st p := by
  induction st with
  | nil =>
    rw [show cacheInsert [] q v = [(q, v)] from rfl, cacheLookup_cons]
    by_cases h : p = q
    · simp [h]
    · rw [if_neg (show ¬((q, v).1 = p) from fun hq => h hq.symm), if_neg h]
  | cons kv rest ih =>
    by_cases hk : kv.1 = q
    · rw [cacheInsert, if_pos hk, cacheLookup_cons, cacheLookup_cons]
      by_cases h : p = q
      · subst h
        simp
      · rw [if_neg (show ¬((q, v).1 = p) from fun hq => h hq.symm), if_neg h,
          if_neg (show ¬(kv.1 = p) from hk ▸ fun hq => h hq.symm)]
    · rw [cacheInsert, if_neg hk, cacheLookup_cons, cacheLookup_cons, ih]
      by_cases h : p = q
      · subst h
        simp [hk]
      · by_cases hkp : kv.1 = p <;> simp [h, hkp]

/-- Unfolding equation for `importFrom` at positive fuel. -/
lemma importFrom_succ (env : ImportEnv) (fuel : Nat) (st : ImporterState)
    (path : String) :
    importFrom env (fuel+1) st path =
      match cacheLookup st path with
      | some none => (st, .error (loopErrMsg path))
      | some (some pkg) => (st, .ok pkg)
      | none =>
        let st1 := cacheInsert st path none
        if env.fastImport path then
          if env.fastBuildOk path then
            (cacheInsert st1 path (some path), .ok path)
          else (st1, .error ("build lookup failed for " ++ path))
        else if !env.buildOk path then
          (st1, .error ("build lookup failed for " ++ path))
        else if !env.parseOk path then
          (st1, .error ("parse failed for " ++ path))
        else
          match checkDeps (importFrom env fuel) st1 (env.deps path) with
          | (st2, .error e) => (st2, .error e)
          | (st2, .ok _) =>
            if env.checkOk path then
              (cacheInsert st2 path (some path), .ok path)
            else (st2, .error ("typecheck failed for " ++ path)) := rfl

/-- A resolution request for a path whose cache entry is the in-progress
sentinel fails immediately with the import-loop error and leaves the
cache untouched. -/
lemma sentinel_hit (env : ImportEnv) (n : Nat) (st : ImporterState) (p : String)
    (h : cacheLookup st p = some none) :
    importFrom env (n+1) st p = (st, .error (loopErrMsg p)) := by
  rw [importFrom_succ, h]

lemma checkDeps_keeps_sentinel
    (resolve : ImporterState → String → ImporterState × Except String String)
    (p : String)
    (hres : ∀ st q, cacheLookup st p = some none →
      cacheLookup (resolve st q).1 p = some none) :
    ∀ (deps : List String) (st : ImporterState),
      cacheLookup st p = some none →
      cacheLookup (checkDeps resolve st deps).1 p = some none := by
  intro deps
  induction deps with
  | nil => intro st h; simpa [checkDeps] using h
  | cons d rest ih =>
    intro st h
    have hpres := hres st d
    simp only [checkDeps]
    cases hr : resolve st d with
    | mk st' r =>
      rw [hr] at hpres
      cases r with
      | error e => simpa using hpres h
      | ok v => exact ih st' (by simpa using hpres h)

lemma importFrom_keeps_sentinel (env : ImportEnv) (p : String) :
    ∀ (fuel : Nat) (st : ImporterState) (q : String),
      cacheLookup st p = some none →
      cacheLookup (importFrom env fuel st q).1 p = some none := by
  intro fuel
  induction fuel with
  | zero => intro st q h; simpa [importFrom] using h
  | succ n ih =>
    intro st q h
    rw [importFrom_succ]
    cases hl : cacheLookup st q with
    | some v => cases v <;> simpa using h
    | none =>
      have hpq : p ≠ q := by
        intro he
        rw [he] at h
        rw [h] at hl
        cases hl
      have h1 : cacheLookup (cacheInsert st q none) p = some none := by
        rw [cacheLookup_insert, if_neg hpq]
        exact h
      by_cases hf : env.fastImport q
      · by_cases hfb : env.fastBuildOk q
        · simp only [hf, hfb, if_true]
          rw [cacheLookup_insert, if_neg hpq]
          exact h1
        · simp [hf, hfb, h1]
      · by_cases hb : env.buildOk q
        · by_cases hpar : env.parseOk q
          · have h2 := checkDeps_keeps_sentinel (importFrom env n) p
              (fun st' q' h' => ih st' q' h') (env.deps q)
              (cacheInsert st q none) h1
            simp only [hf, hb, hpar, Bool.not_true, if_false]
            cases hc : checkDeps (importFrom env n) (cacheInsert st q none)
                (env.deps q) with
            | mk st2 r =>
              rw [hc] at h2
              have h2' : cacheLookup st2 p = some none := by simpa using h2
              cases r with
              | error e => simpa using h2'
              | ok v =>
                by_cases hck : env.checkOk q
                · simp [hck, cacheLookup_insert, hpq]
                  exact h2'
                · simp [hck]
                  exact h2'
          · simp [hf, hb, hpar, h1]
        · simp [hf, hb, h1]

/-- C2: a resolution request for an import path whose cache entry is the
in-progress sentinel fails immediately with the cycle error naming that
path (first conjunct); consequently, for a two-module import cycle
(`a` imports `b` imports `a`, both resolved from source), resolving
either module fails with the cycle error naming the requested module —
the path at which the recursion closed the cycle — regardless of which
module was requested first (second conjunct). -/
theorem cycle_detected_at_closing_edge (env : ImportEnv) :
    (∀ (n : Nat) (st : ImporterState) (path : String),
      cacheLookup st path = some none →
      importFrom env (n+1) st path = (st, .error (loopErrMsg path)))
    ∧ ∀ (a b : String), a ≠ b →
      env.fastImport a = false → env.fastImport b = false →
      env.buildOk a = true → env.buildOk b = true →
      env.parseOk a = true → env.parseOk b = true →
      env.deps a = [b] → env.deps b = [a] →
      (importFrom env 5 [] a).2 = .error (loopErrMsg a)
      ∧ (importFrom env 5 [] b).2 = .error (loopErrMsg b) := by
  refine ⟨fun n st path h => sentinel_hit env n st path h, ?_⟩
  have key : ∀ a b : String, a ≠ b →
      env.fastImport a = false → env.fastImport b = false →
      env.buildOk a = true → env.buildOk b = true →
      env.parseOk a = true → env.parseOk b = true →
      env.deps a = [b] → env.deps b = [a] →
      (importFrom env 5 [] a).2 = .error (loopErrMsg a) := by
    intro a b hab hfa hfb hba hbb hpa hpb hda hdb
    have hl3 : cacheLookup [(a, none), (b, none)] a = some none := by
      simp [cacheLookup]
    have h3 : importFrom env 3 [(a, none), (b, none)] a =
        ([(a, none), (b, none)], .error (loopErrMsg a)) :=
      sentinel_hit env 2 _ a hl3
    have hl2 : cacheLookup [(a, none)] b = none := by
      simp [cacheLookup, hab]
    have hi2 : cacheInsert [(a, none)] b none = [(a, none), (b, none)] := by
      simp [cacheInsert, hab]
    have h2 : importFrom env 4 [(a, none)] b =
        ([(a, none), (b, none)], .error (loopErrMsg a)) := by
      have := importFrom_succ env 3 [(a, none)] b
      rw [show (4 : Nat) = 3 + 1 from rfl, this, hl2]
      simp only [hi2, hfb, hbb, hpb, hdb, Bool.not_true, if_false,
        Bool.false_eq_true, checkDeps, h3]
    have h1 : importFrom env 5 [] a =
        ([(a, none), (b, none)], .error (loopErrMsg a)) := by
      have := importFrom_succ env 4 [] a
      rw [show (5 : Nat) = 4 + 1 from rfl, this]
      rw [show cacheLookup [] a = none from rfl]
      simp only [show cacheInsert ([] : ImporterState) a none = [(a, none)]
        from rfl, hfa, hba, hpa, hda, Bool.not_true, if_false,
        Bool.false_eq_true, checkDeps, h2]
    rw [h1]
  intro a b hab hfa hfb hba hbb hpa hpb hda hdb
  exact ⟨key a b hab hfa hfb hba hbb hpa hpb hda hdb,
    key b a (Ne.symm hab) hfb hfa hbb hba hpb hpa hdb hda⟩


/-- Witness for C2: in the two-module cycle `a ↔ b`, resolving `a`
fails with the loop error naming `a`, and resolving `b` with the one
naming `b`. -/
theorem cycle_detected_at_closing_edge_witness :
    (importFrom cycEnvW 5 [] "a").2 = .error (loopErrMsg "a")
    ∧ (importFrom cycEnvW 5 [] "b").2 = .error (loopErrMsg "b") :=
  (cycle_detected_at_closing_edge cycEnvW).2 "a" "b" (by decide)
    rfl rfl rfl rfl rfl rfl (by decide) (by decide)

/-- C9: when resolution of a fresh import path fails after the
in-progress sentinel has been stored (fast-path build lookup failure,
build failure, parse failure, a dependency failure, or type-check
failure), the sentinel is never removed from the cache: the state the
failing call returns still maps the path to the sentinel, and every
subsequent resolution request for that path fails with the import-loop
error even though no cycle exists. -/
theorem failed_resolution_poisons_cache (env : ImportEnv) (n : Nat)
    (st st' : ImporterState) (p : String) (e : String)
    (hfresh : cacheLookup st p = none)
    (hfail : importFrom env (n+1) st p = (st', .error e)) :
    cacheLookup st' p = some none
    ∧ ∀ m : Nat, importFrom env (m+1) st' p = (st', .error (loopErrMsg p)) := by
  have h1 : cacheLookup (cacheInsert st p none) p = some none := by
    rw [cacheLookup_insert, if_pos rfl]
  have hsent : cacheLookup st' p = some none := by
    rw [importFrom_succ, hfresh] at hfail
    by_cases hf : env.fastImport p
    · by_cases hfb : env.fastBuildOk p
      · simp [hf, hfb] at hfail
      · simp only [hf, hfb] at hfail
        simp at hfail
        rw [← hfail.1]
        exact h1
    · by_cases hb : env.buildOk p
      · by_cases hpar : env.parseOk p
        · simp only [hf, hb, hpar, Bool.not_true, Bool.false_eq_true,
            if_false] at hfail
          have h2 := checkDeps_keeps_sentinel (importFrom env n) p
            (fun st'' q h => importFrom_keeps_sentinel env p n st'' q h)
            (env.deps p) (cacheInsert st p none) h1
          cases hc : checkDeps (importFrom env n) (cacheInsert st p none)
              (env.deps p) with
          | mk st2 r =>
            rw [hc] at hfail h2
            have h2' : cacheLookup st2 p = some none := by simpa using h2
            cases r with
            | error e2 =>
              simp at hfail
              rw [← hfail.1]
              exact h2'
            | ok v =>
              by_cases hck : env.checkOk p
              · simp [hck] at hfail
              · simp only [hck] at hfail
                simp at hfail
                rw [← hfail.1]
                exact h2'
        · simp only [hf, hb, hpar] at hfail
          simp at hfail
          rw [← hfail.1]
          exact h1
      · simp only [hf, hb] at hfail
        simp at hfail
        rw [← hfail.1]
        exact h1
  exact ⟨hsent, fun m => sentinel_hit env m st' p hsent⟩


/-- Witness for C9: after a parse failure while resolving `p`, the
sentinel stays in the cache and a second request for `p` fails with the import-loop
error although there is no cycle. -/
theorem failed_resolution_poisons_cache_witness :
    importFrom failEnvW 1 [("p", none)] "p" =
      ([("p", none)], .error (loopErrMsg "p")) :=
  (failed_resolution_poisons_cache failEnvW 0 [] [("p", none)] "p"
    "parse failed for p" rfl rfl).2 0

/-! ### Helper lemmas about the parallel parse loop -/

lemma execSchedule_length (parse : Nat → Option String) :
    ∀ (schedule : List Nat) (init : List (Option String)),
      (execSchedule parse init schedule).length = init.length := by
  intro schedule
  induction schedule with
  | nil => intro init; rfl
  | cons i rest ih =>
    intro init
    rw [execSchedule, ih, List.length_set]

lemma execSchedule_getElem? (parse : Nat → Option String) :
    ∀ (schedule : List Nat) (init : List (Option String)) (i : Nat),
      (execSchedule parse init schedule)[i]? =
        if i ∈ schedule then
          (if i < init.length then some (parse i) else none)
        else init[i]? := by
  intro schedule
  induction schedule with
  | nil =>
    intro init i
    simp [execSchedule]
  | cons j rest ih =>
    intro init i
    rw [execSchedule, ih]
    by_cases hmem : i ∈ rest
    · simp [hmem, List.length_set, List.mem_cons]
    · simp only [hmem, if_false]
      rw [List.getElem?_set]
      by_cases hij : j = i
      · subst hij
        simp [List.mem_cons, List.length_set]
      · have hji : ¬ i = j := fun h => hij h.symm
        have : ¬ i ∈ (j :: rest) := by
          simp [List.mem_cons, hmem, hji]
        simp [hij, this]

lemma selectFirstError_foldl_some (l : List (Option String)) (x : String) :
    l.foldl
      (fun acc e =>
        match acc, e with
        | none, some err => some err
        | acc, _ => acc)
      (some x) = some x := by
  induction l with
  | nil => rfl
  | cons a l ih => simpa [List.foldl] using ih

lemma selectFirstError_first (l : List (Option String)) :
    ∀ (k : Nat) (msg : String), l[k]? = some (some msg) →
      (∀ i, i < k → l[i]? = some none) →
      selectFirstError l = some msg := by
  induction l with
  | nil => intro k msg h _; simp at h
  | cons a l ih =>
    intro k msg h hpre
    cases k with
    | zero =>
      simp at h
      subst h
      simpa [selectFirstError, List.foldl] using
        selectFirstError_foldl_some l msg
    | succ k' =>
      have ha := hpre 0 (Nat.succ_pos k')
      simp at ha
      subst ha
      have hrec := ih k' msg (by simpa using h)
        (fun i hi => by simpa using hpre (i+1) (Nat.succ_lt_succ hi))
      simpa [selectFirstError, List.foldl] using hrec

/-- C3: when the `n` files of a package are parsed by one concurrent
task per file — each task writing only its own slot of the error array,
all tasks joined before the array is read (so the completion order
`schedule` covers every index) — and file `k` is the first file in
declared order whose parse fails, the returned error is always file
`k`'s, for every completion order; successful files never mask which
error is reported. -/
theorem parse_error_deterministic (parse : Nat → Option String) (n : Nat)
    (schedule : List Nat) (k : Nat) (msg : String)
    (hcover : ∀ i, i < n → i ∈ schedule)
    (hk : k < n)
    (hfirst : ∀ i, i < k → parse i = none)
    (hmsg : parse k = some msg) :
    parsePackageFiles parse n schedule = some msg := by
  unfold parsePackageFiles
  apply selectFirstError_first _ k msg
  · rw [execSchedule_getElem? parse schedule _ k]
    simp [hcover k hk, hk, hmsg]
  · intro i hi
    have hin : i < n := lt_trans hi hk
    rw [execSchedule_getElem? parse schedule _ i]
    simp [hcover i hin, hin, hfirst i hi]


/-- Witness for C3: with three files of which file 1 fails, the
completion order `[2, 0, 1]` still reports file 1's error. -/
theorem parse_error_deterministic_witness :
    parsePackageFiles parseW 3 [2, 0, 1] = some "boom" := by
  apply parse_error_deterministic parseW 3 [2, 0, 1] 1 "boom"
  · intro i hi
    interval_cases i <;> simp
  · omega
  · intro i hi
    have : i = 0 := by omega
    subst this
    rfl
  · rfl

end KlogToLogr
